import Mathlib

/-!
Verification of `app.py` (SHL Assessment Recommendation System).

The program is a single-file Streamlit app with three functional pieces:

* `fetch_shl_catalog` — fetches the SHL product catalog page, parses every
  `<tr>` row into a record `{Assessment Name, URL, Remote Testing Support,
  Adaptive/IRT Support}`, and returns them as a DataFrame; on any fetch
  failure it reports a user-visible error and returns an empty DataFrame.
* `extract_text_from_url` — fetches an arbitrary URL and space-joins the
  text of all `<p>` elements, returning `""` on any exception.
* `recommend_assessments` — fits `TfidfVectorizer(stop_words="english")`
  on the catalog's assessment names only, transforms the query through the
  fitted vocabulary, computes cosine similarities, and returns the rows
  selected by `sims.argsort()[::-1][:top_n]` together with their scores.

Modelling conventions used throughout this file:

* Python strings are Lean `String`s; the ASCII-level behaviour of
  `str.lower`, `str.strip`, `" ".join`, substring tests and
  `str.startswith` is reimplemented on `List Char` so that all definitions
  reduce inside the kernel.
* The sklearn tokenizer (`token_pattern r"(?u)\b\w\w+\b"` after
  lowercasing) is modelled as: maximal runs of alphanumeric-or-underscore
  characters of length at least 2, lowercased.
* `stop_words="english"` refers to sklearn's frozen built-in English stop
  list, which is external to this repository; it is modelled as an explicit
  parameter `stop : List String` (applied to lowercased tokens exactly as
  sklearn does).  Every theorem below is proved for an arbitrary `stop`.
* sklearn's smoothed idf weight `ln((1+n)/(1+df)) + 1` is transcendental;
  it is modelled as a parameter `idf : ℕ → ℕ → ℚ` (arguments: corpus size,
  document frequency).  No claim in scope depends on the idf values — only
  tf-weights of zero matter (a term with zero count has weight zero for any
  idf) and the ranking claims hold for every score vector — so theorems are
  proved for an arbitrary `idf`.
* The cosine-similarity score attached to each result is embedded as the
  *square* of the cosine (a rational number), written
  `dot(q,v)^2 / (|q|^2 * |v|^2)` with the zero-norm convention of
  `sklearn.metrics.pairwise.cosine_similarity` (a zero vector yields 0).
  Since every tf-idf coordinate is non-negative, the true cosine is the
  non-negative square root of this value: the embedding preserves zeroness,
  equality and relative order of scores exactly, which is all the claims
  refer to, while staying inside `ℚ` (the cosine itself needs square
  roots).  l2-normalisation inside `TfidfVectorizer` is dropped because the
  cosine is scale-invariant.
* `np.argsort` (default kind, ascending) is modelled as the *stable*
  ascending argsort, i.e. the unique permutation of `0..n-1` sorted by the
  lexicographic key `(value, index)`.  NumPy's default introsort is not
  documented to be stable in general, but it runs plain insertion sort —
  which is stable — on all arrays shorter than 16 elements, and every
  concrete input used below is far below that threshold, so on those inputs
  the model agrees with NumPy exactly.
* Fallible effects (network access, pandas `KeyError`, sklearn
  `ValueError`) are modelled with `Except String`; Streamlit rendering is
  out of scope except for `st.error` messages, which are modelled as the
  returned warning/error strings.
-/

/-! ## ASCII string primitives (models of the Python string operations) -/

/-- Model of `str.lower` (ASCII). -/
def lowerStr (s : String) : String := String.mk (s.data.map Char.toLower)

/-- Whitespace test used by `str.strip` / BeautifulSoup `strip=True`. -/
def wsChar (c : Char) : Bool := c.isWhitespace

/-- Model of `str.strip()`: drop whitespace from both ends. -/
def trimStr (s : String) : String :=
  String.mk (((s.data.dropWhile wsChar).reverse.dropWhile wsChar).reverse)

/-- String concatenation on the character-list representation. -/
def concatStr (a b : String) : String := String.mk (a.data ++ b.data)

/-- Model of `sep.join(parts)`. -/
def joinSep (sep : String) : List String → String
  | [] => ""
  | [s] => s
  | s :: t => concatStr s (concatStr sep (joinSep sep t))

/-- Model of Python's substring test `needle in haystack`. -/
def containsSub (needle : List Char) : List Char → Bool
  | [] => needle.isEmpty
  | c :: cs => needle.isPrefixOf (c :: cs) || containsSub needle cs

/-! ## Tokenizer and tf-idf model (sklearn `TfidfVectorizer`) -/

/-- A word character of sklearn's token pattern `\w` (ASCII model). -/
def isWordChar (c : Char) : Bool := c.isAlphanum || c = '_'

/-- Maximal runs of word characters; `cur` is the (reversed) run in progress. -/
def tokenRuns : List Char → List Char → List (List Char)
  | [], cur => if cur.isEmpty then [] else [cur.reverse]
  | c :: cs, cur =>
    if isWordChar c then tokenRuns cs (c :: cur)
    else if cur.isEmpty then tokenRuns cs [] else cur.reverse :: tokenRuns cs []

/-- sklearn tokenization: lowercase, then keep maximal word-character runs of
length at least 2 (token pattern `(?u)\b\w\w+\b`). -/
def tokenize (s : String) : List String :=
  ((tokenRuns (lowerStr s).data []).filter (fun l => 2 ≤ l.length)).map (fun l => String.mk l)

/-- Tokens of a document after stop-word removal (sklearn removes stop words
from the token stream, comparing lowercased tokens against the list). -/
def tokensOf (stop : List String) (s : String) : List String :=
  (tokenize s).filter (fun t => ! stop.contains t)

/-- First-occurrence deduplication (structural recursion so that it reduces). -/
def dedupAux : List String → List String → List String
  | [], _ => []
  | x :: xs, seen => if seen.contains x then dedupAux xs seen else x :: dedupAux xs (x :: seen)

/-- The fitted vocabulary: the distinct non-stop tokens of the fitted corpus.
`CountVectorizer` additionally sorts the vocabulary alphabetically to assign
feature indices; the order of features is immaterial to every dot product
below, so the first-occurrence order is kept. -/
def vocabOf (stop : List String) (names : List String) : List String :=
  dedupAux (names.flatMap (tokensOf stop)) []

/-- Document frequency of term `t` in the fitted corpus. -/
def docFreq (stop : List String) (names : List String) (t : String) : ℕ :=
  (names.filter (fun nm => (tokensOf stop nm).contains t)).length

/-- Un-normalised tf-idf weight of term `t` in document `doc`:
raw count times the idf weight of the fitted corpus. -/
def tfidfWeight (stop : List String) (idf : ℕ → ℕ → ℚ) (names : List String)
    (doc : String) (t : String) : ℚ :=
  ((tokensOf stop doc).count t : ℚ) * idf names.length (docFreq stop names t)

/-- Dot product of two feature maps over the vocabulary. -/
def dotOver (vocab : List String) (f g : String → ℚ) : ℚ :=
  (vocab.map (fun t => f t * g t)).sum

/-- Squared cosine similarity of two feature maps, with the zero-vector
convention of `cosine_similarity` (zero norm gives similarity 0). -/
def cosineSimSq (vocab : List String) (f g : String → ℚ) : ℚ :=
  if dotOver vocab f f = 0 ∨ dotOver vocab g g = 0 then 0
  else dotOver vocab f g ^ 2 / (dotOver vocab f f * dotOver vocab g g)

/-- `cosine_similarity(query_vector, name_vectors).flatten()`:
the similarity of the query against every assessment name. -/
def simsOf (stop : List String) (idf : ℕ → ℕ → ℚ) (query : String)
    (names : List String) : List ℚ :=
  names.map (fun nm =>
    cosineSimSq (vocabOf stop names)
      (tfidfWeight stop idf names query) (tfidfWeight stop idf names nm))

/-! ## The ranking core (`recommend_assessments`) -/

/-- One row of the scraped catalog DataFrame.  The support flags are the
literal strings `"Yes"` / `"No"` exactly as the code stores them. -/
structure CatalogEntry where
  assessmentName : String
  url : String
  remoteTestingSupport : String
  adaptiveIrtSupport : String
deriving DecidableEq, Repr, Inhabited

/-- One row of the result DataFrame: a catalog entry plus its `Score` column. -/
structure RankedResult where
  entry : CatalogEntry
  score : ℚ
deriving DecidableEq, Repr

/-- The sort key of the stable ascending argsort: compare values, break ties
by original position. -/
def idxKeyLe (sims : List ℚ) (i j : ℕ) : Prop :=
  sims.getD i 0 < sims.getD j 0 ∨ (sims.getD i 0 = sims.getD j 0 ∧ i ≤ j)

instance (sims : List ℚ) : DecidableRel (idxKeyLe sims) := fun i j => by
  unfold idxKeyLe; infer_instance

/-- Model of `sims.argsort()`: the permutation of `0..n-1` sorted ascending
by value, ties in original order (see the header on NumPy stability). -/
def argsortAsc (sims : List ℚ) : List ℕ :=
  List.insertionSort (idxKeyLe sims) (List.range sims.length)

/-- Model of `sims.argsort()[::-1][:top_n]`. -/
def rankedIndices (sims : List ℚ) (top_n : ℕ) : List ℕ :=
  ((argsortAsc sims).reverse).take top_n

/-- Embedding of `recommend_assessments(query, df, top_n)`.

The two failure paths of the Python code are made explicit:
* an empty DataFrame has no columns at all, so `df["Assessment Name"]`
  raises `KeyError` before the vectorizer is even constructed;
* `vec.fit_transform(names)` raises `ValueError` when no token of any name
  survives tokenization and stop-word removal (sklearn's "empty vocabulary"
  error).  `vec.transform`, `cosine_similarity`, `argsort` and `df.iloc`
  cannot fail after a successful fit.

On success the result is the list of `(entry, score)` rows selected by
`sims.argsort()[::-1][:top_n]`. -/
def recommend_assessments (stop : List String) (idf : ℕ → ℕ → ℚ) (query : String)
    (df : List CatalogEntry) (top_n : ℕ) : Except String (List RankedResult) :=
  if df.isEmpty then
    .error "KeyError: Assessment Name"
  else
    let names := df.map (fun e => e.assessmentName)
    if (vocabOf stop names).isEmpty then
      .error "ValueError: empty vocabulary; perhaps the documents only contain stop words"
    else
      let sims := simsOf stop idf query names
      .ok ((rankedIndices sims top_n).map (fun i =>
        { entry := df.getD i default, score := sims.getD i 0 }))

/-! ## HTML model (BeautifulSoup operations used by the scraper) -/

mutual
/-- An HTML node: an element with a tag, attributes and children, or a text
node.  Children are a nested `HtmlList` so that all recursions below are
structural and reduce in the kernel. -/
inductive Html where
  | element : String → List (String × String) → HtmlList → Html
  | textNode : String → Html
deriving DecidableEq, Repr

/-- A list of HTML nodes (children of an element). -/
inductive HtmlList where
  | nil : HtmlList
  | cons : Html → HtmlList → HtmlList
deriving DecidableEq, Repr
end

/-- Children of a node. -/
def Html.childrenOf : Html → HtmlList
  | .textNode _ => .nil
  | .element _ _ cs => cs

/-- Attributes of a node. -/
def Html.attrsOf : Html → List (String × String)
  | .textNode _ => []
  | .element _ attrs _ => attrs

/-- Tag test. -/
def Html.hasTag (tag : String) : Html → Bool
  | .textNode _ => false
  | .element t _ _ => t == tag

mutual
/-- A node together with all its descendants, in document (pre-)order —
the order in which BeautifulSoup's recursive search visits nodes. -/
def nodeDescendants : Html → List Html
  | .textNode s => [.textNode s]
  | .element t a cs => .element t a cs :: listDescendants cs

/-- Descendants of a list of nodes, in document order. -/
def listDescendants : HtmlList → List Html
  | .nil => []
  | .cons h t => nodeDescendants h ++ listDescendants t
end

mutual
/-- All text-node strings below a node, in document order
(BeautifulSoup's `strings`). -/
def nodeStrings : Html → List String
  | .textNode s => [s]
  | .element _ _ cs => listStrings cs

/-- Text-node strings below a list of nodes. -/
def listStrings : HtmlList → List String
  | .nil => []
  | .cons h t => nodeStrings h ++ listStrings t
end

/-- `soup.find_all(tag)`: every element with the given tag, document order. -/
def findAll (tag : String) (doc : Html) : List Html :=
  (nodeDescendants doc).filter (Html.hasTag tag)

/-- `tile.find("a", href=True)`: the first descendant `<a>` element carrying
an `href` attribute (`find` searches descendants only, not the node itself). -/
def findAnchorWithHref (tile : Html) : Option Html :=
  ((listDescendants (Html.childrenOf tile)).filter
    (fun h => Html.hasTag "a" h && (h.attrsOf.lookup "href").isSome)).head?

/-- `node.get_text(sep, strip=True)`: strip every string, drop the ones that
become empty, join with the separator. -/
def getTextSep (sep : String) (h : Html) : String :=
  joinSep sep (((nodeStrings h).map trimStr).filter (fun s => ! (s == "")))

/-- `anchor.get_text(strip=True)`: same with the empty separator. -/
def getTextStripConcat (h : Html) : String := getTextSep "" h

/-- `p.get_text()`: plain concatenation of all strings below the node. -/
def getTextRaw (h : Html) : String := joinSep "" (nodeStrings h)

/-! ## The scraper (`fetch_shl_catalog`) -/

/-- One `<tr>` tile turned into a catalog row (the loop body of
`fetch_shl_catalog`). -/
def parseTile (tile : Html) : CatalogEntry :=
  let info :=
    match findAnchorWithHref tile with
    | some anchor =>
      let name := getTextStripConcat anchor
      let link := (anchor.attrsOf.lookup "href").getD ""
      (name, if "http".data.isPrefixOf link.data then link
             else concatStr "https://www.shl.com" link)
    | none => ("Unknown", "#")
  let text := lowerStr (getTextSep " " tile)
  { assessmentName := info.1
    url := info.2
    remoteTestingSupport := if containsSub "remote".data text.data then "Yes" else "No"
    adaptiveIrtSupport :=
      if containsSub "adaptive".data text.data || containsSub "irt".data text.data
      then "Yes" else "No" }

/-- The parsing phase of `fetch_shl_catalog`: one row per `<tr>` element. -/
def parseProducts (soup : Html) : List CatalogEntry :=
  (findAll "tr" soup).map parseTile

/-- An HTTP response: status code and body text. -/
structure HttpResponse where
  status : ℕ
  body : String
deriving DecidableEq, Repr

/-- What `fetch_shl_catalog` produces: the catalog plus the `st.error`
message shown to the user, if any. -/
structure FetchOutcome where
  warning : Option String
  catalog : List CatalogEntry
deriving DecidableEq, Repr

/-- `response.raise_for_status()`: raise on HTTP error statuses (4xx/5xx). -/
def raise_for_status (r : HttpResponse) : Except String HttpResponse :=
  if 400 ≤ r.status then .error "HTTPError" else .ok r

/-- Embedding of `fetch_shl_catalog()`.  The network call is a parameter
(`net` is the outcome of `requests.get`, `.error` standing for a raised
exception such as a timeout or connection error); `parse` is
`BeautifulSoup(·, "html.parser")`, which accepts any input without raising. -/
def fetch_shl_catalog (net : Except String HttpResponse)
    (parse : String → Html) : FetchOutcome :=
  match (do let r ← net; raise_for_status r : Except String HttpResponse) with
  | .error e =>
    { warning := some (concatStr "Error fetching SHL catalog: " e), catalog := [] }
  | .ok r => { warning := none, catalog := parseProducts (parse r.body) }

/-! ## The query extractor (`extract_text_from_url`) -/

/-- The body of the `try:` block of `extract_text_from_url`: fetch, parse,
space-join the text of all `<p>` elements.  Only the fetch can raise. -/
def extract_try (net : Except String HttpResponse)
    (parse : String → Html) : Except String String := do
  let resp ← net
  pure (joinSep " " ((findAll "p" (parse resp.body)).map getTextRaw))

/-- Embedding of `extract_text_from_url(url)`: the `try/except` wrapper that
turns any raised exception into the empty string. -/
def extract_text_from_url (net : Except String HttpResponse)
    (parse : String → Html) : String :=
  match extract_try net parse with
  | .ok s => s
  | .error _ => ""

/-! ## Named components of the Ranker's success path -/

/-- The similarity row computed by `recommend_assessments` for a catalog:
the query scored against every assessment name of `df`. -/
def simsFor (stop : List String) (idf : ℕ → ℕ → ℚ) (query : String)
    (df : List CatalogEntry) : List ℚ :=
  simsOf stop idf query (df.map (fun e => e.assessmentName))

/-- The result rows produced on the Ranker's success path:
the rows of `df.iloc[idx]` with their `Score` column, for
`idx = sims.argsort()[::-1][:top_n]`. -/
def okResults (stop : List String) (idf : ℕ → ℕ → ℚ) (query : String)
    (df : List CatalogEntry) (top_n : ℕ) : List RankedResult :=
  (rankedIndices (simsFor stop idf query df) top_n).map (fun i =>
    { entry := df.getD i default, score := (simsFor stop idf query df).getD i 0 })

/-! ## Concrete demonstration data (used by witnesses and counterexamples) -/

/-- A small stop list (a fragment of sklearn's frozen English list; the
theorems hold for every stop list, this one is used for concrete inputs). -/
def stopDemo : List String := ["the", "and", "of", "for", "to", "a", "an"]

/-- A concrete idf parameter for concrete inputs (the claims under scope are
independent of the idf values). -/
def idfDemo : ℕ → ℕ → ℚ := fun _ _ => 1

/-- A concrete catalog row. -/
def catAlpha : CatalogEntry :=
  { assessmentName := "Verify Numerical"
    url := "https://www.shl.com/verify-numerical"
    remoteTestingSupport := "Yes"
    adaptiveIrtSupport := "No" }

/-- A second concrete catalog row. -/
def catBeta : CatalogEntry :=
  { assessmentName := "Coding Assessment"
    url := "https://www.shl.com/coding-assessment"
    remoteTestingSupport := "No"
    adaptiveIrtSupport := "No" }

/-- A catalog row whose name has no token of length ≥ 2: its name
contributes nothing to the vocabulary. -/
def catX : CatalogEntry :=
  { assessmentName := "x"
    url := "#"
    remoteTestingSupport := "No"
    adaptiveIrtSupport := "No" }

/-- Another single-letter-name row (for a separate concrete input). -/
def catA : CatalogEntry :=
  { assessmentName := "a"
    url := "#"
    remoteTestingSupport := "No"
    adaptiveIrtSupport := "No" }

/-- A `<tr>` row that contains a product anchor. -/
def trWithAnchor : Html :=
  .element "tr" []
    (.cons (.element "a" [("href", "/products/verify")]
      (.cons (.textNode " Verify Numerical ") .nil)) .nil)

/-- A `<tr>` row with no hyperlink at all (only row text). -/
def trNoAnchor : Html :=
  .element "tr" [] (.cons (.textNode "Remote testing row without a link") .nil)

/-- A concrete catalog page containing one linked row and one link-less row. -/
def soupDemo : Html :=
  .element "table" [] (.cons trWithAnchor (.cons trNoAnchor .nil))

/-! ## Order-theoretic facts about the argsort key -/

instance (sims : List ℚ) : IsTotal ℕ (idxKeyLe sims) where
  total i j := by
    simp only [idxKeyLe]
    rcases lt_trichotomy (sims.getD i 0) (sims.getD j 0) with h | h | h
    · exact Or.inl (Or.inl h)
    · rcases Nat.le_total i j with hij | hij
      · exact Or.inl (Or.inr ⟨h, hij⟩)
      · exact Or.inr (Or.inr ⟨h.symm, hij⟩)
    · exact Or.inr (Or.inl h)

instance (sims : List ℚ) : IsTrans ℕ (idxKeyLe sims) where
  trans a b c hab hbc := by
    simp only [idxKeyLe] at hab hbc ⊢
    rcases hab with h1 | ⟨e1, l1⟩
    · rcases hbc with h2 | ⟨e2, l2⟩
      · exact Or.inl (h1.trans h2)
      · exact Or.inl (e2 ▸ h1)
    · rcases hbc with h2 | ⟨e2, l2⟩
      · exact Or.inl (e1 ▸ h2)
      · exact Or.inr ⟨e1.trans e2, l1.trans l2⟩

instance (sims : List ℚ) : IsAntisymm ℕ (idxKeyLe sims) where
  antisymm a b hab hba := by
    simp only [idxKeyLe] at hab hba
    rcases hab with h1 | ⟨e1, l1⟩
    · rcases hba with h2 | ⟨e2, l2⟩
      · exact absurd (h1.trans h2) (lt_irrefl _)
      · exact absurd (e2 ▸ h1) (lt_irrefl _)
    · rcases hba with h2 | ⟨e2, l2⟩
      · exact absurd (e1 ▸ h2) (lt_irrefl _)
      · exact Nat.le_antisymm l1 l2

/-! ## Properties of the modelled argsort -/

theorem argsortAsc_perm (sims : List ℚ) :
    (argsortAsc sims).Perm (List.range sims.length) :=
  List.perm_insertionSort _ _

theorem argsortAsc_sorted (sims : List ℚ) :
    List.Sorted (idxKeyLe sims) (argsortAsc sims) :=
  List.sorted_insertionSort _ _

theorem argsortAsc_length (sims : List ℚ) :
    (argsortAsc sims).length = sims.length := by
  rw [(argsortAsc_perm sims).length_eq, List.length_range]

theorem mem_argsortAsc {sims : List ℚ} {i : ℕ} :
    i ∈ argsortAsc sims ↔ i < sims.length := by
  rw [(argsortAsc_perm sims).mem_iff, List.mem_range]

theorem argsortAsc_nodup (sims : List ℚ) : (argsortAsc sims).Nodup :=
  (argsortAsc_perm sims).nodup_iff.mpr (List.nodup_range _)

theorem rankedIndices_length (sims : List ℚ) (k : ℕ) :
    (rankedIndices sims k).length = min k sims.length := by
  simp [rankedIndices, argsortAsc_length]

theorem mem_rankedIndices {sims : List ℚ} {k i : ℕ} (h : i ∈ rankedIndices sims k) :
    i < sims.length := by
  have h2 := List.take_subset _ _ h
  rw [List.mem_reverse] at h2
  exact mem_argsortAsc.mp h2

theorem rankedIndices_nodup (sims : List ℚ) (k : ℕ) : (rankedIndices sims k).Nodup :=
  List.Nodup.sublist (List.take_sublist _ _)
    (List.nodup_reverse.mpr (argsortAsc_nodup sims))

theorem rankedIndices_pairwise (sims : List ℚ) (k : ℕ) :
    (rankedIndices sims k).Pairwise (fun i j => idxKeyLe sims j i) := by
  have h2 : (argsortAsc sims).reverse.Pairwise (fun i j => idxKeyLe sims j i) :=
    List.pairwise_reverse.mpr (argsortAsc_sorted sims)
  exact List.Pairwise.sublist (List.take_sublist _ _) h2

theorem rankedIndices_pairwise_strict (sims : List ℚ) (k : ℕ) :
    (rankedIndices sims k).Pairwise (fun i j =>
      sims.getD j 0 < sims.getD i 0 ∨ (sims.getD i 0 = sims.getD j 0 ∧ j < i)) := by
  have h1 := rankedIndices_pairwise sims k
  have h2 : (rankedIndices sims k).Pairwise (fun i j => i ≠ j) := rankedIndices_nodup sims k
  refine (h1.and h2).imp ?_
  rintro i j ⟨hk, hne⟩
  rcases hk with h | ⟨he, hle⟩
  · exact Or.inl h
  · exact Or.inr ⟨he.symm, lt_of_le_of_ne hle (Ne.symm hne)⟩

theorem argsortAsc_eq_range (sims : List ℚ)
    (hall : ∀ i j, i < sims.length → j < sims.length →
      sims.getD i 0 = sims.getD j 0) :
    argsortAsc sims = List.range sims.length := by
  refine List.eq_of_perm_of_sorted (argsortAsc_perm sims) (argsortAsc_sorted sims) ?_
  refine List.Pairwise.imp_of_mem ?_ (List.pairwise_lt_range _)
  intro a b ha hb hlt
  exact Or.inr ⟨hall a b (List.mem_range.mp ha) (List.mem_range.mp hb), Nat.le_of_lt hlt⟩

theorem rankedIndices_of_const (sims : List ℚ) (k : ℕ)
    (hall : ∀ i j, i < sims.length → j < sims.length →
      sims.getD i 0 = sims.getD j 0) :
    rankedIndices sims k = (List.range sims.length).reverse.take k := by
  rw [rankedIndices, argsortAsc_eq_range sims hall]

/-! ## Facts about the vocabulary and the score vector -/

theorem mem_of_mem_dedupAux {l seen : List String} {t : String}
    (h : t ∈ dedupAux l seen) : t ∈ l := by
  induction l generalizing seen with
  | nil => rw [dedupAux] at h; cases h
  | cons x xs ih =>
    by_cases hx : seen.contains x
    · rw [dedupAux, if_pos hx] at h
      exact List.mem_cons_of_mem _ (ih h)
    · rw [dedupAux, if_neg hx] at h
      rcases List.mem_cons.mp h with rfl | h2
      · exact List.mem_cons_self _ _
      · exact List.mem_cons_of_mem _ (ih h2)

theorem mem_vocabOf {stop names : List String} {t : String}
    (h : t ∈ vocabOf stop names) : ∃ nm, nm ∈ names ∧ t ∈ tokensOf stop nm := by
  have h2 := mem_of_mem_dedupAux h
  exact List.mem_flatMap.mp h2

theorem simsOf_length (stop : List String) (idf : ℕ → ℕ → ℚ) (query : String)
    (names : List String) : (simsOf stop idf query names).length = names.length := by
  simp [simsOf]

theorem simsFor_length (stop : List String) (idf : ℕ → ℕ → ℚ) (query : String)
    (df : List CatalogEntry) : (simsFor stop idf query df).length = df.length := by
  simp [simsFor, simsOf]

theorem getD_replicate_zero (n i : ℕ) : (List.replicate n (0:ℚ)).getD i 0 = 0 := by
  rcases Nat.lt_or_ge i n with h | h
  · rw [List.getD_eq_getElem _ _ (by simpa using h)]
    simp
  · rw [List.getD_eq_default _ _ (by simpa using h)]

theorem dotOver_congr {vocab : List String} {f1 f2 g1 g2 : String → ℚ}
    (hf : ∀ t ∈ vocab, f1 t = f2 t) (hg : ∀ t ∈ vocab, g1 t = g2 t) :
    dotOver vocab f1 g1 = dotOver vocab f2 g2 := by
  unfold dotOver
  apply congrArg
  apply List.map_congr_left
  intro t ht
  rw [hf t ht, hg t ht]

theorem cosineSimSq_congr {vocab : List String} {f1 f2 g : String → ℚ}
    (hf : ∀ t ∈ vocab, f1 t = f2 t) :
    cosineSimSq vocab f1 g = cosineSimSq vocab f2 g := by
  unfold cosineSimSq
  rw [dotOver_congr hf hf, dotOver_congr hf (fun _ _ => rfl)]

/-! ## The two exits of `recommend_assessments` -/

theorem recommend_eq_ok (stop : List String) (idf : ℕ → ℕ → ℚ) (query : String)
    (df : List CatalogEntry) (top_n : ℕ)
    (hv : vocabOf stop (df.map (fun e => e.assessmentName)) ≠ []) :
    recommend_assessments stop idf query df top_n =
      .ok (okResults stop idf query df top_n) := by
  have hdf : df ≠ [] := by
    rintro rfl
    exact hv rfl
  rw [recommend_assessments]
  rw [if_neg (by simp [List.isEmpty_iff, hdf])]
  rw [if_neg (by simp [List.isEmpty_iff, hv])]
  rfl

theorem recommend_ok_inv (stop : List String) (idf : ℕ → ℕ → ℚ) (query : String)
    (df : List CatalogEntry) (top_n : ℕ) (res : List RankedResult)
    (h : recommend_assessments stop idf query df top_n = .ok res) :
    res = okResults stop idf query df top_n := by
  rw [recommend_assessments] at h
  by_cases h1 : df.isEmpty
  · rw [if_pos h1] at h
    cases h
  · rw [if_neg h1] at h
    by_cases h2 : (vocabOf stop (df.map (fun e => e.assessmentName))).isEmpty
    · rw [if_pos h2] at h
      cases h
    · rw [if_neg h2] at h
      exact (Except.ok.inj h).symm

theorem simsOf_eq_zero (stop : List String) (idf : ℕ → ℕ → ℚ) (query : String)
    (names : List String)
    (hno : ∀ t ∈ tokensOf stop query, ∀ nm ∈ names, t ∉ tokensOf stop nm) :
    simsOf stop idf query names = List.replicate names.length 0 := by
  have hw : ∀ t ∈ vocabOf stop names, tfidfWeight stop idf names query t = 0 := by
    intro t ht
    rcases mem_vocabOf ht with ⟨nm, hnm, htok⟩
    have hnq : t ∉ tokensOf stop query := fun hq => hno t hq nm hnm htok
    simp [tfidfWeight, List.count_eq_zero.mpr hnq]
  have hq0 : dotOver (vocabOf stop names) (tfidfWeight stop idf names query)
      (tfidfWeight stop idf names query) = 0 := by
    apply List.sum_eq_zero
    intro x hx
    rcases List.mem_map.mp hx with ⟨t, ht, rfl⟩
    rw [hw t ht, zero_mul]
  have hlen : (simsOf stop idf query names).length = names.length :=
    simsOf_length stop idf query names
  rw [← hlen]
  apply List.eq_replicate_of_mem
  intro b hb
  rcases List.mem_map.mp hb with ⟨nm, _, rfl⟩
  rw [cosineSimSq, if_pos (Or.inl hq0)]

/-! ## The claims -/

/-- Claim C1 — the spec states that an empty catalog yields an empty result
sequence, but the code fails instead: `fetch_shl_catalog` returns
`pd.DataFrame()` on fetch failure, which has no columns, so
`df["Assessment Name"]` in `recommend_assessments` raises `KeyError` for
every query and every `top_n` (and even with an empty named column present,
`vec.fit_transform([])` would raise sklearn's empty-vocabulary
`ValueError`).  The Ranker therefore raises rather than returning an empty
sequence: the code contradicts the documented intent. -/
theorem C1_empty_catalog_raises (stop : List String) (idf : ℕ → ℕ → ℚ)
    (query : String) (top_n : ℕ) :
    recommend_assessments stop idf query [] top_n =
      .error "KeyError: Assessment Name" := rfl

/-- Claim C7 — determinism: `recommend_assessments` is a pure function of
`(query, catalog, top_n)` (together with the fixed library parameters: the
stop list and the idf weighting), so two calls on identical inputs return
identical outputs — the same entries in the same order with the same
scores.  In the embedding this is definitional. -/
theorem C7_deterministic (stop : List String) (idf : ℕ → ℕ → ℚ)
    (query : String) (df : List CatalogEntry) (top_n : ℕ) :
    recommend_assessments stop idf query df top_n =
      recommend_assessments stop idf query df top_n := rfl

/-- Claim C8 — `extract_text_from_url` never propagates an exception: when
`requests.get` raises (timeout, network error), the `except` branch returns
the empty string, and on success the function returns the space-joined
concatenation of the text of all `<p>` elements of the fetched page (a
non-HTML body simply parses to a tree without `<p>` elements, yielding
`""`). -/
theorem C8_extract_never_raises (parse : String → Html) (e : String)
    (r : HttpResponse) :
    extract_text_from_url (.error e) parse = "" ∧
    extract_text_from_url (.ok r) parse =
      joinSep " " ((findAll "p" (parse r.body)).map getTextRaw) :=
  ⟨rfl, rfl⟩

/-- Claim C9 — on any fetch failure (a raised exception from `requests.get`,
or an HTTP error status raised by `response.raise_for_status()`),
`fetch_shl_catalog` does not propagate the exception: it reports a
user-visible `st.error` warning and returns an empty catalog. -/
theorem C9_fetch_failure_degrades (parse : String → Html) (e : String)
    (r : HttpResponse) (hstatus : 400 ≤ r.status) :
    fetch_shl_catalog (.error e) parse =
      { warning := some (concatStr "Error fetching SHL catalog: " e), catalog := [] } ∧
    fetch_shl_catalog (.ok r) parse =
      { warning := some (concatStr "Error fetching SHL catalog: " "HTTPError"),
        catalog := [] } := by
  refine ⟨rfl, ?_⟩
  have hr : raise_for_status r = .error "HTTPError" := by
    rw [raise_for_status, if_pos hstatus]
  rw [fetch_shl_catalog]
  have hb : (do let x ← (.ok r : Except String HttpResponse); raise_for_status x) =
      raise_for_status r := rfl
  rw [hb, hr]

/-- Witness for C9 at a concrete timeout and a concrete 404 response. -/
theorem C9_fetch_failure_degrades_witness :
    fetch_shl_catalog (.error "timeout") (fun _ => Html.textNode "") =
      { warning := some (concatStr "Error fetching SHL catalog: " "timeout"),
        catalog := [] } ∧
    fetch_shl_catalog (.ok ⟨404, "Not Found"⟩) (fun _ => Html.textNode "") =
      { warning := some (concatStr "Error fetching SHL catalog: " "HTTPError"),
        catalog := [] } := by
  have h := C9_fetch_failure_degrades (fun _ => Html.textNode "") "timeout"
    ⟨404, "Not Found"⟩ (by decide)
  exact ⟨h.1, h.2⟩

/-- Claim C10 — the catalog parser emits exactly one entry per `<tr>` element
of the fetched page, and a row containing no hyperlink (no descendant `<a>`
with an `href`) produces the placeholder entry with display name
`"Unknown"` and URL `"#"`, which therefore appears in the catalog. -/
theorem C10_one_entry_per_tr (soup : Html) :
    (parseProducts soup).length = (findAll "tr" soup).length ∧
    ∀ tile ∈ findAll "tr" soup, findAnchorWithHref tile = none →
      (parseTile tile).assessmentName = "Unknown" ∧
      (parseTile tile).url = "#" ∧
      parseTile tile ∈ parseProducts soup := by
  refine ⟨by simp [parseProducts], ?_⟩
  intro tile ht hanchor
  refine ⟨?_, ?_, List.mem_map_of_mem _ ht⟩
  · simp [parseTile, hanchor]
  · simp [parseTile, hanchor]

/-- Witness for C10 on a concrete page with a link-less `<tr>` row. -/
theorem C10_one_entry_per_tr_witness :
    (parseTile trNoAnchor).assessmentName = "Unknown" ∧
    (parseTile trNoAnchor).url = "#" ∧
    parseTile trNoAnchor ∈ parseProducts soupDemo ∧
    (parseProducts soupDemo).length = (findAll "tr" soupDemo).length := by
  have h := C10_one_entry_per_tr soupDemo
  have h2 := h.2 trNoAnchor (by decide) (by decide)
  exact ⟨h2.1, h2.2.1, h2.2.2, h.1⟩

/-- Claim C2 — counterexample.  The query `"zz"` shares no vocabulary with
the two catalog names, so both similarity scores are exactly `0` (a tie);
yet the Ranker returns the catalog entries in REVERSE catalog order
(`catBeta` before `catAlpha`), because `argsort()[::-1]` flips the order of
equally-scored entries.  This refutes "among equally scored entries the one
earlier in the catalog appears earlier in the output" and "when all scores
are equal the output is the original catalog order truncated to top_n" at a
concrete input.  (The behaviour is independent of the modelled stop list
and idf weights: the tokens involved are not stop words in any variant and
the tie is at score exactly 0 for every idf.) -/
theorem C2_counterexample :
    recommend_assessments stopDemo idfDemo "zz" [catAlpha, catBeta] 10 =
      .ok [{ entry := catBeta, score := 0 }, { entry := catAlpha, score := 0 }] ∧
    catBeta ≠ catAlpha := by
  constructor
  · rw [recommend_eq_ok _ _ _ _ _ (by decide)]
    apply congrArg Except.ok
    rw [okResults, simsFor, simsOf_eq_zero _ _ _ _ (by decide)]
    decide
  · decide

/-- Claim C2 — amended.  The Ranker orders results by similarity descending,
but ties (equal scores) are broken by REVERSE catalog order: among equally
scored entries, the one later in the catalog appears earlier in the output
(`argsort` ascending is stable, and the `[::-1]` reversal flips each run of
equal scores).  In particular, when all scores are equal the selected
indices are the reversed catalog order truncated to `top_n`; and whenever
the vocabulary is non-empty the Ranker's output pairs exactly those indices
with their entries and scores. -/
theorem C2_amended_ties_reversed (stop : List String) (idf : ℕ → ℕ → ℚ)
    (query : String) (df : List CatalogEntry) (top_n : ℕ) :
    (rankedIndices (simsFor stop idf query df) top_n).Pairwise (fun i j =>
      (simsFor stop idf query df).getD j 0 < (simsFor stop idf query df).getD i 0 ∨
      ((simsFor stop idf query df).getD i 0 = (simsFor stop idf query df).getD j 0 ∧
        j < i)) ∧
    ((∀ i j, i < df.length → j < df.length →
        (simsFor stop idf query df).getD i 0 = (simsFor stop idf query df).getD j 0) →
      rankedIndices (simsFor stop idf query df) top_n =
        (List.range df.length).reverse.take top_n) ∧
    (vocabOf stop (df.map (fun e => e.assessmentName)) ≠ [] →
      recommend_assessments stop idf query df top_n =
        .ok (okResults stop idf query df top_n)) := by
  refine ⟨rankedIndices_pairwise_strict _ _, ?_, recommend_eq_ok stop idf query df top_n⟩
  intro hall
  have hlen := simsFor_length stop idf query df
  rw [rankedIndices_of_const _ _ (by rw [hlen]; exact hall), hlen]

/-- Witness for the amended C2: with query `"zz"` against the two-entry demo
catalog all scores are equal (both 0), and the selected indices are the
reversed catalog order `[1, 0]`; the call succeeds with exactly those rows. -/
theorem C2_amended_ties_reversed_witness :
    rankedIndices (simsFor stopDemo idfDemo "zz" [catAlpha, catBeta]) 10 =
      (List.range 2).reverse.take 10 ∧
    recommend_assessments stopDemo idfDemo "zz" [catAlpha, catBeta] 10 =
      .ok (okResults stopDemo idfDemo "zz" [catAlpha, catBeta] 10) := by
  have hs : simsFor stopDemo idfDemo "zz" [catAlpha, catBeta] = List.replicate 2 0 := by
    rw [simsFor, simsOf_eq_zero _ _ _ _ (by decide)]
    rfl
  constructor
  · exact (C2_amended_ties_reversed stopDemo idfDemo "zz" [catAlpha, catBeta] 10).2.1
      (by intro i j hi hj; rw [hs, getD_replicate_zero, getD_replicate_zero])
  · exact (C2_amended_ties_reversed stopDemo idfDemo "zz" [catAlpha, catBeta] 10).2.2
      (by decide)

/-- Claim C3 — counterexample.  The claim quantifies over every non-empty
catalog, but a non-empty catalog whose names contribute no vocabulary token
(here the single name `"x"`, below the two-character token threshold) makes
`vec.fit_transform(names)` raise sklearn's empty-vocabulary `ValueError`,
so with positive `top_n = 1` the call produces no output at all instead of
an output of length `min(1, 1) = 1`. -/
theorem C3_counterexample :
    recommend_assessments stopDemo idfDemo "numerical reasoning" [catX] 1 =
      .error "ValueError: empty vocabulary; perhaps the documents only contain stop words" ∧
    ¬ ∃ res : List RankedResult,
        recommend_assessments stopDemo idfDemo "numerical reasoning" [catX] 1 = .ok res := by
  have h1 : recommend_assessments stopDemo idfDemo "numerical reasoning" [catX] 1 =
      .error "ValueError: empty vocabulary; perhaps the documents only contain stop words" :=
    rfl
  refine ⟨h1, ?_⟩
  rintro ⟨res, h⟩
  rw [h1] at h
  cases h

/-- Claim C3 — amended.  For every query, every non-empty catalog *whose
names yield a non-empty tf-idf vocabulary* (otherwise the vectorizer
raises), and every positive `top_n`, the Ranker succeeds and its output has
length `min(top_n, catalog size)`, every output entry comes from the
catalog, the selected catalog indices are distinct and in range (no
duplicate entries), and the attached scores are non-increasing by
position. -/
theorem C3_amended_output_invariants (stop : List String) (idf : ℕ → ℕ → ℚ)
    (query : String) (df : List CatalogEntry) (top_n : ℕ)
    (_hdf : df ≠ []) (_htop : 0 < top_n)
    (hv : vocabOf stop (df.map (fun e => e.assessmentName)) ≠ []) :
    ∃ res, recommend_assessments stop idf query df top_n = .ok res ∧
      res.length = min top_n df.length ∧
      (∀ r ∈ res, r.entry ∈ df) ∧
      res.Pairwise (fun a b => b.score ≤ a.score) ∧
      (rankedIndices (simsFor stop idf query df) top_n).Nodup ∧
      (∀ i ∈ rankedIndices (simsFor stop idf query df) top_n, i < df.length) ∧
      res = (rankedIndices (simsFor stop idf query df) top_n).map (fun i =>
        { entry := df.getD i default, score := (simsFor stop idf query df).getD i 0 }) := by
  refine ⟨okResults stop idf query df top_n, recommend_eq_ok _ _ _ _ _ hv,
    ?_, ?_, ?_, rankedIndices_nodup _ _, ?_, rfl⟩
  · rw [okResults, List.length_map, rankedIndices_length, simsFor_length]
  · intro r hr
    rw [okResults] at hr
    rcases List.mem_map.mp hr with ⟨i, hi, rfl⟩
    have hlt : i < df.length := by
      have h2 := mem_rankedIndices hi
      rwa [simsFor_length] at h2
    show df.getD i default ∈ df
    rw [List.getD_eq_getElem _ _ hlt]
    exact List.getElem_mem hlt
  · rw [okResults]
    refine List.Pairwise.map _ ?_ (rankedIndices_pairwise _ top_n)
    intro a b hk
    rcases hk with h | ⟨he, _⟩
    · exact le_of_lt h
    · exact le_of_eq he
  · intro i hi
    have h2 := mem_rankedIndices hi
    rwa [simsFor_length] at h2

/-- Witness for the amended C3 at a concrete two-entry catalog. -/
theorem C3_amended_output_invariants_witness :
    ∃ res, recommend_assessments stopDemo idfDemo "numerical" [catAlpha, catBeta] 2 =
        .ok res ∧
      res.length = min 2 [catAlpha, catBeta].length ∧
      (∀ r ∈ res, r.entry ∈ [catAlpha, catBeta]) ∧
      res.Pairwise (fun a b => b.score ≤ a.score) ∧
      (rankedIndices (simsFor stopDemo idfDemo "numerical" [catAlpha, catBeta]) 2).Nodup ∧
      (∀ i ∈ rankedIndices (simsFor stopDemo idfDemo "numerical" [catAlpha, catBeta]) 2,
        i < [catAlpha, catBeta].length) ∧
      res = (rankedIndices (simsFor stopDemo idfDemo "numerical" [catAlpha, catBeta]) 2).map
        (fun i => { entry := [catAlpha, catBeta].getD i default,
                    score := (simsFor stopDemo idfDemo "numerical" [catAlpha, catBeta]).getD i 0 }) :=
  C3_amended_output_invariants stopDemo idfDemo "numerical" [catAlpha, catBeta] 2
    (by decide) (by decide) (by decide)

/-- Claim C4 — counterexample.  The claim quantifies over every non-empty
catalog and every query with no vocabulary overlap, but if the catalog
itself contributes no vocabulary token (here the single name `"a"`), the
no-overlap hypothesis holds vacuously while `vec.fit_transform(names)`
raises sklearn's empty-vocabulary `ValueError`: the Ranker fails instead of
returning all-zero scores. -/
theorem C4_counterexample :
    (∀ t ∈ tokensOf stopDemo "zz", ∀ nm ∈ [catA].map (fun e => e.assessmentName),
        t ∉ tokensOf stopDemo nm) ∧
    recommend_assessments stopDemo idfDemo "zz" [catA] 10 =
      .error "ValueError: empty vocabulary; perhaps the documents only contain stop words" :=
  ⟨by decide, rfl⟩

/-- Claim C4 — amended.  For every catalog whose names yield a non-empty
tf-idf vocabulary and every query sharing no vocabulary with any catalog
name after stop-word removal, the Ranker does not fail: the zero query
vector yields cosine similarity 0 against every name, so the call succeeds
and every returned score is 0. -/
theorem C4_amended_no_overlap_scores_zero (stop : List String) (idf : ℕ → ℕ → ℚ)
    (query : String) (df : List CatalogEntry) (top_n : ℕ)
    (hv : vocabOf stop (df.map (fun e => e.assessmentName)) ≠ [])
    (hno : ∀ t ∈ tokensOf stop query, ∀ nm ∈ df.map (fun e => e.assessmentName),
        t ∉ tokensOf stop nm) :
    ∃ res, recommend_assessments stop idf query df top_n = .ok res ∧
      ∀ r ∈ res, r.score = 0 := by
  refine ⟨okResults stop idf query df top_n, recommend_eq_ok _ _ _ _ _ hv, ?_⟩
  intro r hr
  rw [okResults] at hr
  rcases List.mem_map.mp hr with ⟨i, hi, rfl⟩
  show (simsFor stop idf query df).getD i 0 = 0
  rw [simsFor, simsOf_eq_zero _ _ _ _ hno, getD_replicate_zero]

/-- Witness for the amended C4: a no-overlap query against a catalog with a
real vocabulary succeeds with all scores 0. -/
theorem C4_amended_no_overlap_scores_zero_witness :
    ∃ res, recommend_assessments stopDemo idfDemo "zz" [catAlpha] 10 = .ok res ∧
      ∀ r ∈ res, r.score = 0 :=
  C4_amended_no_overlap_scores_zero stopDemo idfDemo "zz" [catAlpha] 10
    (by decide) (by decide)

theorem count_filter_eq {α : Type} [BEq α] [LawfulBEq α] (p : α → Bool) (a : α)
    (l : List α) (h : p a = true) : (l.filter p).count a = l.count a :=
  List.count_filter h

/-- Claim C5 — the code implements the catalog-only vectorization variant:
the vocabulary and idf weights are functions of the catalog names alone
(by definition of `vocabOf`/`docFreq`, which never see the query), and the
query is transformed through that fitted vocabulary, so query tokens absent
from every catalog name are dropped: two queries whose token streams agree
after restriction to the fitted vocabulary produce identical outputs. -/
theorem C5_catalog_only_fit (stop : List String) (idf : ℕ → ℕ → ℚ)
    (df : List CatalogEntry) (top_n : ℕ) (q1 q2 : String)
    (hfilter : (tokensOf stop q1).filter
        (fun t => decide (t ∈ vocabOf stop (df.map (fun e => e.assessmentName)))) =
      (tokensOf stop q2).filter
        (fun t => decide (t ∈ vocabOf stop (df.map (fun e => e.assessmentName))))) :
    recommend_assessments stop idf q1 df top_n =
      recommend_assessments stop idf q2 df top_n := by
  have hcount : ∀ t ∈ vocabOf stop (df.map (fun e => e.assessmentName)),
      (tokensOf stop q1).count t = (tokensOf stop q2).count t := by
    intro t ht
    have hp : decide (t ∈ vocabOf stop (df.map (fun e => e.assessmentName))) = true :=
      decide_eq_true ht
    calc (tokensOf stop q1).count t
        = ((tokensOf stop q1).filter
            (fun t2 => decide (t2 ∈ vocabOf stop (df.map (fun e => e.assessmentName))))).count t :=
          (count_filter_eq (fun t2 => decide (t2 ∈ vocabOf stop (df.map (fun e => e.assessmentName))))
            t (tokensOf stop q1) hp).symm
      _ = ((tokensOf stop q2).filter
            (fun t2 => decide (t2 ∈ vocabOf stop (df.map (fun e => e.assessmentName))))).count t := by
          rw [hfilter]
      _ = (tokensOf stop q2).count t :=
          count_filter_eq (fun t2 => decide (t2 ∈ vocabOf stop (df.map (fun e => e.assessmentName))))
            t (tokensOf stop q2) hp
  have hw : ∀ t ∈ vocabOf stop (df.map (fun e => e.assessmentName)),
      tfidfWeight stop idf (df.map (fun e => e.assessmentName)) q1 t =
      tfidfWeight stop idf (df.map (fun e => e.assessmentName)) q2 t := by
    intro t ht
    rw [tfidfWeight, tfidfWeight, hcount t ht]
  have hsims : simsOf stop idf q1 (df.map (fun e => e.assessmentName)) =
      simsOf stop idf q2 (df.map (fun e => e.assessmentName)) := by
    unfold simsOf
    apply List.map_congr_left
    intro nm _
    exact cosineSimSq_congr hw
  simp only [recommend_assessments, hsims]

/-- Witness for C5: appending the out-of-vocabulary token `"zz"` to a query
leaves the Ranker's output unchanged. -/
theorem C5_catalog_only_fit_witness :
    recommend_assessments stopDemo idfDemo "numerical zz" [catAlpha, catBeta] 10 =
      recommend_assessments stopDemo idfDemo "numerical" [catAlpha, catBeta] 10 :=
  C5_catalog_only_fit stopDemo idfDemo [catAlpha, catBeta] 10 "numerical zz" "numerical"
    (by decide)

/-- Claim C6 — every entry appearing in the Ranker's output is one of the
input catalog's entries, equal as a record (hence identical in name, URL
and both support flags); and the call does not mutate the catalog — the
embedding is a pure function (as in the code, which writes its `Score`
column only to `df.iloc[idx].copy()`), so the input list is untouched by
construction. -/
theorem C6_entries_intact (stop : List String) (idf : ℕ → ℕ → ℚ)
    (query : String) (df : List CatalogEntry) (top_n : ℕ)
    (res : List RankedResult)
    (h : recommend_assessments stop idf query df top_n = .ok res) :
    ∀ r ∈ res, r.entry ∈ df := by
  rw [recommend_ok_inv stop idf query df top_n res h]
  intro r hr
  rw [okResults] at hr
  rcases List.mem_map.mp hr with ⟨i, hi, rfl⟩
  have hlt : i < df.length := by
    have h2 := mem_rankedIndices hi
    rwa [simsFor_length] at h2
  show df.getD i default ∈ df
  rw [List.getD_eq_getElem _ _ hlt]
  exact List.getElem_mem hlt

/-- Witness for C6 at a concrete successful call: the first returned row's
entry is one of the two catalog entries. -/
theorem C6_entries_intact_witness :
    ((okResults stopDemo idfDemo "numerical" [catAlpha, catBeta] 10).getD 0
      { entry := catAlpha, score := 0 }).entry ∈ [catAlpha, catBeta] := by
  have hlen : (okResults stopDemo idfDemo "numerical" [catAlpha, catBeta] 10).length = 2 := by
    rw [okResults, List.length_map, rankedIndices_length, simsFor_length]
    decide
  have hpos : 0 < (okResults stopDemo idfDemo "numerical" [catAlpha, catBeta] 10).length := by
    rw [hlen]
    decide
  have hmem : (okResults stopDemo idfDemo "numerical" [catAlpha, catBeta] 10).getD 0
      { entry := catAlpha, score := 0 } ∈
      okResults stopDemo idfDemo "numerical" [catAlpha, catBeta] 10 := by
    rw [List.getD_eq_getElem _ _ hpos]
    exact List.getElem_mem hpos
  exact C6_entries_intact stopDemo idfDemo "numerical" [catAlpha, catBeta] 10 _
    (recommend_eq_ok stopDemo idfDemo "numerical" [catAlpha, catBeta] 10 (by decide))
    _ hmem
